import Mathlib

/-!
Verification of the pymetrics in-memory recorder, instruments and the
statsd-family publishers, as a shallow embedding in Lean 4.

Conventions of the embedding:
* Python numbers are modelled with `ℤ` (ints) and `ℚ` (floats); wall-clock
  time is an explicit `ℚ` parameter threaded through the operations that
  call `time.time()`.
* Python `None`-able results are `Option`, raised exceptions are `Except`.
* `round` is Python 3 `round` (half-to-even), modelled by `PyM.pyRound`.
* Python `dict`s are association lists in insertion order (Python dicts
  preserve insertion order); `frozenset` hashing in the recorder's key
  derivation is modelled by an abstract function from the finite set of
  non-`resolution` tag items to the decimal string Python would embed,
  since `hash` itself is unspecified.
-/

namespace PyM

/-- Python 3 `round` to an integer: round-half-to-even. -/
def pyRound (q : ℚ) : ℤ :=
  let f : ℤ := ⌊q⌋
  let frac : ℚ := q - (f : ℚ)
  if frac < 1/2 then f
  else if frac > 1/2 then f + 1
  else if f % 2 = 0 then f else f + 1

/-- Python exception kinds raised by the instruments. -/
inductive PyErr where
  | typeError
  | valueError
  deriving DecidableEq, Repr

/-- A tag value (`pymetrics.instruments.Tag`): text, int, or `None`.
(Float and bool tag values exist in the source's `Tag` union but no claim
exercises them; bools are ints in Python.) -/
inductive TagV where
  | str (s : String)
  | int (z : ℤ)
  | null
  deriving DecidableEq, Repr

/-- A tag mapping in insertion order, keys unique (a Python `dict`). -/
abbrev Tags := List (String × TagV)

/-! ## Counter (`pymetrics/instruments.py`, class `Counter`) -/

/-- `Counter` state: `name`, `_initial_value`, `_value` (always ints). -/
structure Counter where
  name : String
  initialValue : ℤ
  val : ℤ
  tags : Tags
  deriving DecidableEq, Repr

/-- `Counter.__init__`: raises `TypeError` unless the initial value is a
non-negative integer (the int-ness is static here); otherwise the value
starts at `int(initial_value)`. -/
def Counter.make (name : String) (initialValue : ℤ) (tags : Tags) : Except PyErr Counter :=
  if initialValue < 0 then .error .typeError
  else .ok { name := name, initialValue := initialValue, val := initialValue, tags := tags }

/-- `Counter.increment(amount)`: `self._value += amount; return self.value`.
There is no validation of `amount` in the source. -/
def Counter.increment (c : Counter) (amount : ℤ) : Counter × ℤ :=
  let c' := { c with val := c.val + amount }
  (c', c'.val)

/-- `Counter.reset(value)`: `None` restores the initial value; a negative
value raises `ValueError`; otherwise the value is set to `int(value)`. -/
def Counter.reset (c : Counter) (value : Option ℤ) : Except PyErr (Counter × ℤ) :=
  match value with
  | none => .ok ({ c with val := c.initialValue }, c.initialValue)
  | some v =>
    if v < 0 then .error .valueError
    else .ok ({ c with val := v }, v)

/-- `Counter.value`: `int(self._value)`. Never `None`. -/
def Counter.value (c : Counter) : ℤ := c.val

/-! ## Gauge (`pymetrics/instruments.py`, class `Gauge`) -/

/-- `Gauge` state: `_value` is an int (per `__init__`/`set` contracts). -/
structure Gauge where
  name : String
  initialValue : ℤ
  val : ℤ
  tags : Tags
  deriving DecidableEq, Repr

/-- `Gauge.__init__`: raises `TypeError` unless the initial value is a
non-negative integer. -/
def Gauge.make (name : String) (initialValue : ℤ) (tags : Tags) : Except PyErr Gauge :=
  if initialValue < 0 then .error .typeError
  else .ok { name := name, initialValue := initialValue, val := initialValue, tags := tags }

/-- `Gauge.set(value)`: `None` restores the initial value; a negative value
raises `ValueError`; otherwise `_value := value`. -/
def Gauge.set (g : Gauge) (value : Option ℤ) : Except PyErr Gauge :=
  match value with
  | none => .ok { g with val := g.initialValue }
  | some v =>
    if v < 0 then .error .valueError
    else .ok { g with val := v }

/-- `Gauge.value` (inherited `Metric.value`): `int(round(float(self._value)))`.
Always a number, never `None`. -/
def Gauge.value (g : Gauge) : Option ℤ := some (pyRound (g.val : ℚ))

/-! ## Histogram (`pymetrics/instruments.py`, class `Histogram`) -/

/-- `Histogram` state: `_value` may be a float. -/
structure Histogram where
  name : String
  initialValue : ℚ
  val : ℚ
  tags : Tags
  deriving DecidableEq, Repr

/-- `Histogram.__init__` (inherited `Metric.__init__`): any numeric initial
value is accepted (no sign check in the base class). -/
def Histogram.make (name : String) (initialValue : ℚ) (tags : Tags) : Histogram :=
  { name := name, initialValue := initialValue, val := initialValue, tags := tags }

/-- `Histogram.set(value)`: `None` restores the initial value; a negative
value raises `ValueError`; otherwise `_value := value`. -/
def Histogram.set (h : Histogram) (value : Option ℚ) : Except PyErr Histogram :=
  match value with
  | none => .ok { h with val := h.initialValue }
  | some v =>
    if v < 0 then .error .valueError
    else .ok { h with val := v }

/-- `Histogram.value` (inherited `Metric.value`): `int(round(float(_value)))`,
never `None`. -/
def Histogram.value (h : Histogram) : Option ℤ := some (pyRound h.val)

/-! ## Timer (`pymetrics/instruments.py`, class `Timer`) -/

/-- `Timer` state. `resolution` is the `TimerResolution` multiplier
(milliseconds `10^3`, microseconds `10^6`, nanoseconds `10^9`).
`startTime`/`runningValue` mirror `_start_time`/`_running_value`. -/
structure Timer where
  name : String
  initialValue : ℚ
  val : ℚ
  startTime : Option ℚ
  runningValue : ℚ
  resolution : ℕ
  tags : Tags
  deriving DecidableEq, Repr

/-- `Timer.start()`: `self._start_time = time.time()`. -/
def Timer.start (t : Timer) (now : ℚ) : Timer :=
  { t with startTime := some now }

/-- `Timer.__init__`: base init sets `_value` to the initial value, then
`_start_time = None`, `_running_value = 0.0`, then the redundant
`if self._initial_value and self._initial_value > 0: self._value = ...`,
and finally `self.start()` is invoked with the construction-time clock. -/
def Timer.make (name : String) (initialValue : ℚ) (resolution : ℕ) (tags : Tags)
    (now : ℚ) : Timer :=
  let base : Timer :=
    { name := name, initialValue := initialValue, val := initialValue,
      startTime := none, runningValue := 0, resolution := resolution, tags := tags }
  let base :=
    if base.initialValue ≠ 0 ∧ base.initialValue > 0 then { base with val := base.initialValue }
    else base
  base.start now

/-- `Timer.stop()`: a no-op when `_start_time is None`; otherwise adds the
elapsed time to `_running_value` and clears `_start_time`. -/
def Timer.stop (t : Timer) (now : ℚ) : Timer :=
  match t.startTime with
  | none => t
  | some s => { t with runningValue := t.runningValue + (now - s), startTime := none }

/-- Python truthiness of `self._start_time`: `None` and `0.0` are falsy. -/
def Timer.startTimeTruthy (t : Timer) : Prop :=
  match t.startTime with
  | none => False
  | some s => s ≠ 0

instance (t : Timer) : Decidable t.startTimeTruthy := by
  unfold Timer.startTimeTruthy
  cases t.startTime <;> infer_instance

/-- `Timer.value`: if `_running_value > 0 and not _start_time`, the
accumulated time multiplied by the resolution and rounded; else the set or
initial value rounded if truthy; else `None`. -/
def Timer.value (t : Timer) : Option ℤ :=
  if t.runningValue > 0 ∧ ¬ t.startTimeTruthy then
    some (pyRound (t.runningValue * (t.resolution : ℚ)))
  else if t.val ≠ 0 then
    some (pyRound t.val)
  else
    none

/-- `Timer.set` is `Histogram.set` (Timer subclasses Histogram). -/
def Timer.set (t : Timer) (value : Option ℚ) : Except PyErr Timer :=
  match value with
  | none => .ok { t with val := t.initialValue }
  | some v =>
    if v < 0 then .error .valueError
    else .ok { t with val := v }

/-! ## `record_over_function`

A Python callable invocation is modelled by the `Except` outcome it
produces (`.ok` for a normal return, `.error` for a raised exception);
helpers that do not invoke the callable do not consume that outcome. -/

/-- `Metric.record_over_function` — the base implementation inherited by
`Gauge` and `Histogram`: raises `TypeError`; the callable is never
invoked, so the outcome does not depend on it. -/
def Metric.recordOverFunctionUnsupported (fres : Except ε ρ) : Except (PyErr ⊕ ε) ρ :=
  .error (.inl .typeError)

/-- `Gauge.record_over_function` is the inherited base implementation. -/
def Gauge.recordOverFunction (g : Gauge) (fres : Except ε ρ) : Except (PyErr ⊕ ε) ρ :=
  Metric.recordOverFunctionUnsupported fres

/-- `Histogram.record_over_function` is the inherited base implementation. -/
def Histogram.recordOverFunction (h : Histogram) (fres : Except ε ρ) : Except (PyErr ⊕ ε) ρ :=
  Metric.recordOverFunctionUnsupported fres

/-- `Counter.record_over_function`: `self.increment()` (by the default 1),
then the callable runs, its outcome propagated unaltered. -/
def Counter.recordOverFunction (c : Counter) (fres : Except ε ρ) : Counter × Except ε ρ :=
  ((c.increment 1).1, fres)

/-- `Timer.record_over_function`: `with self: return f(...)` — the timer
starts when the call begins (`tStart`) and is stopped when it ends
(`tEnd`) on both exit paths, normal return and raised exception alike. -/
def Timer.recordOverFunction (t : Timer) (tStart tEnd : ℚ) (fres : Except ε ρ) :
    Timer × Except ε ρ :=
  match fres with
  | .ok r => (((t.start tStart).stop tEnd), .ok r)
  | .error e => (((t.start tStart).stop tEnd), .error e)

/-! ## Timer traces

Helpers to speak about repeated `start`/`stop` cycles on one timer. -/

/-- Run a list of `(start_time, stop_time)` cycles on a timer. -/
def runPairs (t : Timer) (ps : List (ℚ × ℚ)) : Timer :=
  ps.foldl (fun tm p => (tm.start p.1).stop p.2) t

/-- The total elapsed duration of a list of start/stop cycles. -/
def pairsElapsed (ps : List (ℚ × ℚ)) : ℚ :=
  (ps.map (fun p => p.2 - p.1)).sum

/-! ## The metric sum type and shared accessors

The Python classes form a hierarchy `Metric > {Counter, Gauge, Histogram > Timer}`;
the publishers dispatch on `isinstance`. Here a metric is a sum. -/

/-- A metric instrument: the argument of `get_all_metrics` and the publishers. -/
inductive Metric where
  | counter (c : Counter)
  | gauge (g : Gauge)
  | histogram (h : Histogram)
  | timer (t : Timer)
  deriving DecidableEq, Repr

/-- `metric.name`. -/
def Metric.name : Metric → String
  | .counter c => c.name
  | .gauge g => g.name
  | .histogram h => h.name
  | .timer t => t.name

/-- `metric.value`: `Counter.value`/`Gauge.value`/`Histogram.value` are
never `None`; only `Timer.value` can be. -/
def Metric.value : Metric → Option ℤ
  | .counter c => some c.value
  | .gauge g => g.value
  | .histogram h => h.value
  | .timer t => t.value

/-- `metric.tags`. -/
def Metric.tags : Metric → Tags
  | .counter c => c.tags
  | .gauge g => g.tags
  | .histogram h => h.tags
  | .timer t => t.tags

/-! ## StatsdPublisher (`pymetrics/publishers/statsd.py`) -/

/-- `StatsdPublisher` configuration state after `__init__`:
`maximum_packet_size = min(argument, 65000)`; the histogram/timer type
labels are the plain statsd ones. -/
structure StatsdPublisher where
  maximumPacketSize : ℕ
  deriving DecidableEq, Repr

/-- `StatsdPublisher.__init__` caps the packet size at
`MAXIMUM_PACKET_SIZE = 65000`. -/
def StatsdPublisher.make (maximumPacketSize : ℕ := 65000) : StatsdPublisher :=
  { maximumPacketSize := min maximumPacketSize 65000 }

/-- The statsd type suffix: counter `c`, gauge `g`, timer `ms`,
histogram `ms` (`METRIC_TYPE_*` on `StatsdPublisher`). -/
def statsdTypeLabel : Metric → String
  | .counter _ => "c"
  | .gauge _ => "g"
  | .timer _ => "ms"
  | .histogram _ => "ms"

/-- One formatted statsd line, `b'%s:%d|%s' % (name, value, type_label)`. -/
def statsdLine (name : String) (value : ℤ) (typeLabel : String) : String :=
  name ++ ":" ++ toString value ++ "|" ++ typeLabel

/-- `StatsdPublisher.get_formatted_metrics`: metrics whose value is `None`
are skipped, the rest become `name:value|type` lines; when meta-metrics
are enabled and any line was produced, a meta-timer line is prepended
(its measured value is the explicit `metaValue` parameter here). -/
def StatsdPublisher.getFormattedMetrics (metrics : List Metric)
    (enableMetaMetrics : Bool := false) (metaValue : ℤ := 0) : List String :=
  let formatted := metrics.filterMap fun m =>
    (m.value).map fun v => statsdLine m.name v (statsdTypeLabel m)
  if formatted.isEmpty then []
  else if enableMetaMetrics then
    statsdLine ("pymetrics.meta.publish.statsd.format_metrics") metaValue ("ms") :: formatted
  else formatted

/-! ### Packet chunking (`StatsdPublisher.publish`)

The chunking loop operates on the list of formatted byte-strings; bytes
are modelled as naturals, `b'\n'` as the byte 10, and a UDP send is an
element of the returned payload list. -/

/-- A formatted metric line as a byte-string. -/
abbrev ByteLine := List ℕ

/-- `b'\n'.join(chunk)`. -/
def joinNL : List ByteLine → ByteLine
  | [] => []
  | [l] => l
  | l :: ls => l ++ 10 :: joinNL ls

/-- One iteration of the chunking loop of `StatsdPublisher.publish`:
the state is (payloads already sent, current chunk, cumulative length).
`cumulative_length += len(line) + 1`; on overflow the pending chunk is
sent and the counters reset; then the line joins the (new) chunk. -/
def publishStep (maxSize : ℕ) (st : List ByteLine × List ByteLine × ℕ)
    (line : ByteLine) : List ByteLine × List ByteLine × ℕ :=
  let metricLength := line.length + 1
  let cumulative := st.2.2 + metricLength
  if cumulative > maxSize then
    (st.1 ++ [joinNL st.2.1], [line], metricLength)
  else
    (st.1, st.2.1 ++ [line], cumulative)

/-- `StatsdPublisher.publish` at the level of formatted lines: the list of
UDP payloads sent, in order. An empty input sends nothing; a leftover
chunk is sent at the end. -/
def publishPayloads (maxSize : ℕ) (lines : List ByteLine) : List ByteLine :=
  if lines.isEmpty then []
  else
    let st := lines.foldl (publishStep maxSize) ([], [], 0)
    if st.2.1.isEmpty then st.1 else st.1 ++ [joinNL st.2.1]

/-! ## DogStatsdPublisher (`pymetrics/publishers/datadog.py`) -/

/-- The body of the tag loop of `_generate_tag_string`: the state is the
tag string built so far and the `first` flag; `None` tag values are
rendered bare, int values as `:%d`, text values as `:%s`. -/
def tagStringStep (acc : String × Bool) (kv : String × TagV) : String × Bool :=
  let valueString :=
    match kv.2 with
    | .null => ""
    | .int z => ":" ++ toString z
    | .str s => ":" ++ s
  if acc.2 then (acc.1 ++ kv.1 ++ valueString, false)
  else (acc.1 ++ "," ++ kv.1 ++ valueString, false)

/-- `DogStatsdPublisher._generate_tag_string(tags, existing_tags_string)`:
extends an existing tag string, or starts a fresh `|#` one. -/
def generateTagString (tags : Tags) (existingTagsString : String := "") : String :=
  if tags.isEmpty then existingTagsString
  else
    let start := if existingTagsString ≠ "" then (existingTagsString, false) else ("|#", true)
    (tags.foldl tagStringStep start).1

/-- `DogStatsdPublisher` configuration state after `__init__`: the packet
size is capped at 8000, the global and gauge tag strings are precomputed,
and `use_distributions` switches the histogram/timer labels to `d`. -/
structure DogStatsdPublisher where
  maximumPacketSize : ℕ
  globalTagsString : String
  globalGaugeTagsString : String
  metricTypeHistogram : String
  metricTypeTimer : String
  deriving DecidableEq, Repr

/-- `DogStatsdPublisher.__init__`. -/
def DogStatsdPublisher.make (globalTags : Tags := []) (extraGaugeTags : Tags := [])
    (useDistributions : Bool := false) (maximumPacketSize : ℕ := 8000) : DogStatsdPublisher :=
  let globalTagsString := generateTagString globalTags
  { maximumPacketSize := min maximumPacketSize 8000
    globalTagsString := globalTagsString
    globalGaugeTagsString := generateTagString extraGaugeTags globalTagsString
    metricTypeHistogram := if useDistributions then "d" else "h"
    metricTypeTimer := if useDistributions then "d" else "ms" }

/-- The dogstatsd type suffix for a publisher configuration. -/
def DogStatsdPublisher.typeLabel (p : DogStatsdPublisher) : Metric → String
  | .counter _ => "c"
  | .gauge _ => "g"
  | .timer _ => p.metricTypeTimer
  | .histogram _ => p.metricTypeHistogram

/-- The tag-string base used for one metric: gauges get the merged
global-plus-extra-gauge string, everything else the global string. -/
def DogStatsdPublisher.existingTagsFor (p : DogStatsdPublisher) : Metric → String
  | .gauge _ => p.globalGaugeTagsString
  | _ => p.globalTagsString

/-- `DogStatsdPublisher.get_formatted_metrics`:
`b'%s:%d|%s%s' % (name, value, type_label, metric_tags_string)`. -/
def DogStatsdPublisher.getFormattedMetrics (p : DogStatsdPublisher) (metrics : List Metric)
    (enableMetaMetrics : Bool := false) (metaValue : ℤ := 0) : List String :=
  let formatted := metrics.filterMap fun m =>
    (m.value).map fun v =>
      statsdLine m.name v (p.typeLabel m) ++ generateTagString m.tags (p.existingTagsFor m)
  if formatted.isEmpty then []
  else if enableMetaMetrics then
    (statsdLine ("pymetrics.meta.publish.statsd.format_metrics") metaValue p.metricTypeTimer
      ++ p.globalTagsString) :: formatted
  else formatted

/-! ## DefaultMetricsRecorder (`pymetrics/recorders/default.py`)

Python `dict`s keyed by the internal name are association lists in
insertion order. `str(hash(frozenset(...)))` in `_get_name` is modelled
by an abstract `hashStr` function on the finite set of non-`resolution`
tag items, returning the decimal string Python would interpolate. -/

/-- The tag-items hashing function abstracted from
`str(hash(frozenset((k, v) for k, v in tags.items() if k != 'resolution')))`. -/
abbrev HashStr := Finset (String × TagV) → String

/-- Association-list lookup (`internal_name in collection` /
`collection[internal_name]`). -/
def alookup (l : List (String × α)) (k : String) : Option α :=
  match l with
  | [] => none
  | (k', v) :: rest => if k' = k then some v else alookup rest k

/-- Association-list store: replaces the value at an existing key in
place, otherwise appends the new key (Python dict insertion order). -/
def astore (l : List (String × α)) (k : String) (v : α) : List (String × α) :=
  match l with
  | [] => [(k, v)]
  | (k', v') :: rest => if k' = k then (k, v) :: rest else (k', v') :: astore rest k v

/-- Recorder state (`DefaultMetricsRecorder.__init__`): the four
collections, the unpublished-metric counter, `_last_publish_timestamp`
initialised to `0`, and the configuration (`none` when unconfigured,
`some enableMetaMetrics` when configured). -/
structure Recorder where
  namePrefix : Option String
  counters : List (String × Counter)
  gauges : List (String × List Gauge)
  histograms : List (String × List Histogram)
  timers : List (String × List Timer)
  unpublishedCount : ℕ
  lastPublish : ℚ
  config : Option Bool

/-- A freshly constructed recorder. -/
def Recorder.init (namePrefix : Option String) (config : Option Bool) : Recorder :=
  { namePrefix := namePrefix, counters := [], gauges := [], histograms := [],
    timers := [], unpublishedCount := 0, lastPublish := 0, config := config }

/-- The first component of `_get_name`: `'.'.join((prefix, name))` when
the prefix is truthy. -/
def Recorder.prefixedName (r : Recorder) (name : String) : String :=
  match r.namePrefix with
  | some p => if p ≠ "" then p ++ "." ++ name else name
  | none => name

/-- The second component of `_get_name`: the internal key. A `#`-hash
suffix over the non-`resolution` tag items is appended exactly when the
tag dict is non-empty and is not just a lone `resolution` entry. -/
def getInternalName (hashStr : HashStr) (name : String) (tags : Tags) : String :=
  if ¬ tags.isEmpty ∧ ("resolution" ∉ tags.map Prod.fst ∨ tags.length > 1) then
    name ++ "#" ++ hashStr (tags.filter (fun kv => kv.1 ≠ "resolution")).toFinset
  else name

/-- `DefaultMetricsRecorder.counter`: reuse the counter stored under the
internal key, creating (and counting) it on first access. The result
carries the internal key of the returned instrument. -/
def Recorder.counter (hashStr : HashStr) (r : Recorder) (name : String)
    (initialValue : ℤ := 0) (tags : Tags := []) : Except PyErr (Recorder × String × Counter) :=
  let n := r.prefixedName name
  let internal := getInternalName hashStr n tags
  match alookup r.counters internal with
  | some c => .ok (r, internal, c)
  | none =>
    (Counter.make n initialValue tags).map fun c =>
      ({ r with counters := r.counters ++ [(internal, c)],
                unpublishedCount := r.unpublishedCount + 1 }, internal, c)

/-- `DefaultMetricsRecorder._get_metric_from_list_or_create`, generic in
the instrument type: create a singleton list under an absent key; append
when `force_new` is set or the most-recent entry's value is not `None`;
otherwise reuse. Returns the new collection, the new unpublished count,
and the index of the returned instrument (`collection[internal_name][-1]`). -/
def getMetricFromListOrCreate (collection : List (String × List α)) (internal : String)
    (forceNew : Bool) (mk : Except PyErr α) (val : α → Option ℤ) (count : ℕ) :
    Except PyErr (List (String × List α) × ℕ × ℕ) :=
  match alookup collection internal with
  | none => mk.map fun m => (astore collection internal [m], count + 1, 0)
  | some ms =>
    if forceNew || (match ms.getLast? with | some last => (val last).isSome | none => true) then
      mk.map fun m => (astore collection internal (ms ++ [m]), count + 1, ms.length)
    else
      .ok (collection, count, ms.length - 1)

/-- `DefaultMetricsRecorder.gauge`. -/
def Recorder.gauge (hashStr : HashStr) (r : Recorder) (name : String)
    (forceNew : Bool := false) (initialValue : ℤ := 0) (tags : Tags := []) :
    Except PyErr (Recorder × String × ℕ) :=
  let n := r.prefixedName name
  let internal := getInternalName hashStr n tags
  (getMetricFromListOrCreate r.gauges internal forceNew (Gauge.make n initialValue tags)
      Gauge.value r.unpublishedCount).map
    fun res => ({ r with gauges := res.1, unpublishedCount := res.2.1 }, internal, res.2.2)

/-- `DefaultMetricsRecorder.histogram`. -/
def Recorder.histogram (hashStr : HashStr) (r : Recorder) (name : String)
    (forceNew : Bool := false) (initialValue : ℚ := 0) (tags : Tags := []) :
    Except PyErr (Recorder × String × ℕ) :=
  let n := r.prefixedName name
  let internal := getInternalName hashStr n tags
  (getMetricFromListOrCreate r.histograms internal forceNew (.ok (Histogram.make n initialValue tags))
      Histogram.value r.unpublishedCount).map
    fun res => ({ r with histograms := res.1, unpublishedCount := res.2.1 }, internal, res.2.2)

/-- `DefaultMetricsRecorder.timer`; `now` is the construction-time clock
of a newly created timer (`Timer.__init__` calls `start`). The
`resolution` keyword is part of `kwargs` in the source only as an
explicit parameter, not a tag. -/
def Recorder.timer (hashStr : HashStr) (r : Recorder) (name : String)
    (forceNew : Bool := false) (resolution : ℕ := 1000) (initialValue : ℚ := 0)
    (tags : Tags := []) (now : ℚ := 0) : Except PyErr (Recorder × String × ℕ) :=
  let n := r.prefixedName name
  let internal := getInternalName hashStr n tags
  (getMetricFromListOrCreate r.timers internal forceNew
      (.ok (Timer.make n initialValue resolution tags now)) Timer.value r.unpublishedCount).map
    fun res => ({ r with timers := res.1, unpublishedCount := res.2.1 }, internal, res.2.2)

/-- `DefaultMetricsRecorder.get_all_metrics`: all counters, then the
gauges, histograms and timers whose value is not `None`, each collection
iterated in insertion order; when the configuration enables meta-metrics
a meta-timer (running from `metaT0` to `metaT1` at microsecond
resolution) is prepended. First, that meta-timer: -/
def getAllMetricsMetaTimer (metaT0 metaT1 : ℚ) : Timer :=
  (Timer.make ("pymetrics.meta.recorder.get_all_metrics") 0 1000000 [] metaT0).stop metaT1

/-- See `Recorder.getAllMetrics`; split out so the parts can be named. -/
def Recorder.getAllMetricsBody (r : Recorder) : List Metric :=
  r.counters.map (fun kv => Metric.counter kv.2)
  ++ r.gauges.flatMap (fun kv => (kv.2.filter (fun g => g.value.isSome)).map Metric.gauge)
  ++ r.histograms.flatMap (fun kv => (kv.2.filter (fun h => h.value.isSome)).map Metric.histogram)
  ++ r.timers.flatMap (fun kv => (kv.2.filter (fun t => t.value.isSome)).map Metric.timer)

/-- `DefaultMetricsRecorder.get_all_metrics` continued: meta-timer
prepended when the configuration enables meta-metrics. -/
def Recorder.getAllMetrics (r : Recorder) (metaT0 : ℚ := 0) (metaT1 : ℚ := 0) : List Metric :=
  if r.config = some true then
    Metric.timer (getAllMetricsMetaTimer metaT0 metaT1) :: r.getAllMetricsBody
  else r.getAllMetricsBody

/-- `DefaultMetricsRecorder._get_metric_dict_cleared_of_published_metrics`:
keep only the entries whose value is still `None`, drop emptied keys,
and count what remains. -/
def clearedOfPublished (d : List (String × List α)) (val : α → Option ℤ) :
    List (String × List α) × ℕ :=
  let new := (d.map (fun kv => (kv.1, kv.2.filter (fun m => (val m).isNone)))).filter
    (fun kv => ¬ kv.2.isEmpty)
  (new, (new.map (fun kv => kv.2.length)).sum)

/-- `DefaultMetricsRecorder.clear`: counters and gauges are always
dropped; histograms and timers are dropped fully or, with
`only_published`, reduced to their still-unpublished entries, the
unpublished count becoming what remains. -/
def Recorder.clear (r : Recorder) (onlyPublished : Bool := false) : Recorder :=
  if onlyPublished then
    let hs := clearedOfPublished r.histograms Histogram.value
    let ts := clearedOfPublished r.timers Timer.value
    { r with counters := [], gauges := [], histograms := hs.1, timers := ts.1,
             unpublishedCount := hs.2 + ts.2 }
  else
    { r with counters := [], gauges := [], histograms := [], timers := [],
             unpublishedCount := 0 }

/-- `DefaultMetricsRecorder.publish_all`: when configured, the full
snapshot is dispatched (returned here as `some batch`); either way the
state is cleared of published metrics and the last-publish timestamp
becomes the current time. -/
def Recorder.publishAll (r : Recorder) (now : ℚ) : Recorder × Option (List Metric) :=
  let published := if r.config.isSome then some (r.getAllMetrics now now) else none
  let r' := r.clear true
  ({ r' with lastPublish := now }, published)

/-- `DefaultMetricsRecorder.publish_if_full_or_old`: publishes exactly
when the unpublished count strictly exceeds `max_metrics` or at least
`max_age` has elapsed since the last publish. The boolean records
whether `publish_all` ran. -/
def Recorder.publishIfFullOrOld (r : Recorder) (now : ℚ) (maxMetrics : ℕ := 18)
    (maxAge : ℚ := 10) : Recorder × Bool :=
  if r.unpublishedCount > maxMetrics ∨ now - r.lastPublish ≥ maxAge then
    ((r.publishAll now).1, true)
  else (r, false)

/-- `DefaultMetricsRecorder.throttled_publish_all`: publishes exactly
when at least `delay` has elapsed since the last publish. -/
def Recorder.throttledPublishAll (r : Recorder) (now : ℚ) (delay : ℚ := 10) :
    Recorder × Bool :=
  if now - r.lastPublish ≥ delay then ((r.publishAll now).1, true) else (r, false)

/-! ## Measures used by the chunking proofs -/

/-- The `cumulative_length` contribution of a list of lines: each line
plus its one-byte terminator. -/
def chunkSum (chunk : List ByteLine) : ℕ :=
  (chunk.map (fun l => l.length + 1)).sum

/-- A concrete instance of the abstract tag-items hash string, for
evaluating the key derivation on concrete inputs. -/
def hashStr0 : HashStr := fun _ => "0"

/-- Another concrete tag-items hash string (the cardinality in decimal),
distinguishing tag sets of different sizes. -/
def hashStrCard : HashStr := fun s => toString s.card

/-! # Theorems -/

/-- Storing under a key makes it the value found under that key. -/
theorem alookup_astore_self (l : List (String × α)) (k : String) (v : α) :
    alookup (astore l k v) k = some v := by
  induction l with
  | nil => simp [astore, alookup]
  | cons kv rest ih =>
    by_cases h : kv.1 = k
    · simp [astore, alookup, h]
    · simp [astore, alookup, h, ih]

/-- C1 (amended): because a `Gauge`'s value is never `None`, every call to
`DefaultMetricsRecorder.gauge` — also with an identical name and tags —
appends a fresh `Gauge` to the list held for the key and returns that new
instance (the index past the previous entries), incrementing the
unpublished count; the recorder accumulates gauges instead of
overwriting a single one. -/
theorem gauge_always_appends (hashStr : HashStr) (r : Recorder) (name : String)
    (forceNew : Bool) (v : ℤ) (tags : Tags) (hv : 0 ≤ v) :
    (Recorder.gauge hashStr r name forceNew v tags).map
        (fun res => ((alookup res.1.gauges res.2.1).map List.length, res.2.2,
                     res.1.unpublishedCount))
      = .ok
        (some (((alookup r.gauges
            (getInternalName hashStr (r.prefixedName name) tags)).elim 0 List.length) + 1),
         ((alookup r.gauges
            (getInternalName hashStr (r.prefixedName name) tags)).elim 0 List.length),
         r.unpublishedCount + 1) := by
  unfold Recorder.gauge getMetricFromListOrCreate
  cases hms : alookup r.gauges (getInternalName hashStr (r.prefixedName name) tags) with
  | none =>
    simp [hms, Gauge.make, not_lt.mpr hv, Except.map, alookup_astore_self]
  | some ms =>
    simp only [hms]
    split
    · simp [Gauge.make, not_lt.mpr hv, Except.map, alookup_astore_self]
    · next hfalse =>
      exfalso
      apply hfalse
      cases hl : ms.getLast? with
      | none => simp
      | some last => simp [Gauge.value]

/-- Witness for `gauge_always_appends` at a concrete input. -/
theorem gauge_always_appends_witness :
    (0:ℤ) ≤ 0 ∧
    (Recorder.gauge hashStr0 (Recorder.init none none) ("g") false 0 []).map
        (fun res => ((alookup res.1.gauges res.2.1).map List.length, res.2.2,
                     res.1.unpublishedCount))
      = .ok (some 1, 0, 1) :=
  ⟨by decide,
   gauge_always_appends hashStr0 (Recorder.init none none) ("g") false 0 [] (by decide)⟩

/-- C1 counterexample: on a fresh recorder, two `gauge` calls with the
identical name and (empty) tag set return the instruments at indices 0
and then 1 of a two-element list — two distinct `Gauge` instances are
held for the one key, refuting overwrite-in-place. -/
theorem gauge_overwrite_cex :
    ((Recorder.gauge hashStr0 (Recorder.init none none) ("g")).bind fun a =>
      (Recorder.gauge hashStr0 a.1 ("g")).map fun b =>
        (a.2.2, b.2.2, (alookup b.1.gauges b.2.1).map List.length))
      = Except.ok (0, 1, some 2) := by rfl

/-- C2 (amended): a `Counter` constructed with a non-negative integer
initial value `v` has value `v`, and `increment(n)` changes the value by
exactly `n` for every integer `n` — the source performs no positivity
check on `n`, so no error is raised for `n ≤ 0`. -/
theorem counter_semantics (name : String) (v : ℤ) (tags : Tags) (c : Counter) (n : ℤ)
    (hv : 0 ≤ v) :
    (Counter.make name v tags).map Counter.value = .ok v ∧
    (c.increment n).2 = c.value + n ∧
    (c.increment n).1.value = c.value + n := by
  refine ⟨?_, ?_, ?_⟩ <;>
    simp [Counter.make, Counter.increment, Counter.value, Except.map, not_lt.mpr hv]

/-- Witness for `counter_semantics` at a concrete input. -/
theorem counter_semantics_witness :
    (0:ℤ) ≤ 3 ∧ (Counter.make ("c") 3 []).map Counter.value = .ok 3 :=
  ⟨by decide, (counter_semantics ("c") 3 [] ⟨"c", 0, 5, []⟩ 2 (by decide)).1⟩

/-- C2 counterexample: `increment(-3)` on a counter with value 5 raises
nothing — it returns the decreased value 2 (`Counter.increment` has no
validation), refuting the claim that `increment(n)` raises for `n ≤ 0`. -/
theorem counter_increment_no_raise_cex :
    (Counter.make ("c") 5 []).map (fun c => ((c.increment (-3)).2, (c.increment (-3)).1.value))
      = .ok (2, 2) := by rfl

/-- C5 (amended): `publish_if_full_or_old` triggers `publish_all` exactly
when the unpublished-metric counter strictly exceeds `max_metrics` or at
least `max_age` has elapsed since the last publish; with the age
condition unmet, it publishes only once the counter strictly exceeds
`max_metrics` — for `max_metrics = 2`, not after a 1st or 2nd
unpublished metric, but after a 3rd. -/
theorem publish_if_full_or_old_strict (r : Recorder) (now : ℚ) (maxMetrics : ℕ) (maxAge : ℚ) :
    ((r.publishIfFullOrOld now maxMetrics maxAge).2 = true ↔
      (maxMetrics < r.unpublishedCount ∨ maxAge ≤ now - r.lastPublish)) ∧
    (now - r.lastPublish < maxAge →
      ((r.publishIfFullOrOld now maxMetrics maxAge).2 = true ↔
        maxMetrics < r.unpublishedCount)) := by
  constructor
  · unfold Recorder.publishIfFullOrOld
    split
    · simp_all
    · simp_all
  · intro hage
    unfold Recorder.publishIfFullOrOld
    split
    · next hc => simp_all [not_le.mpr hage]
    · next hc =>
      push_neg at hc
      simp_all [not_lt.mpr hc.1]

/-- Witness for `publish_if_full_or_old_strict` at a concrete input. -/
theorem publish_if_full_or_old_strict_witness :
    ((6:ℚ) - 5 < 10) ∧
    ((Recorder.publishIfFullOrOld
        { Recorder.init none none with unpublishedCount := 3, lastPublish := 5 } 6 2 10).2 = true
      ↔ 2 < 3) :=
  ⟨by norm_num [Recorder.init],
   (publish_if_full_or_old_strict
      { Recorder.init none none with unpublishedCount := 3, lastPublish := 5 } 6 2 10).2
      (by norm_num [Recorder.init])⟩

/-- C5 counterexample: with `max_metrics = 2`, two unpublished metrics and
the age condition unmet, `publish_if_full_or_old` does not publish
(`2 > 2` is false) — refuting "does publish after a 2nd unpublished
metric". -/
theorem publish_after_second_metric_cex :
    (Recorder.publishIfFullOrOld
        { Recorder.init none none with unpublishedCount := 2, lastPublish := 5 } 6 2 10).2
      = false := by
  unfold Recorder.publishIfFullOrOld
  norm_num [Recorder.init]

/-- The length of a newline-joined non-empty chunk is one less than the
cumulative length the loop tracked for it. -/
theorem joinNL_length (chunk : List ByteLine) (h : chunk ≠ []) :
    (joinNL chunk).length + 1 = chunkSum chunk := by
  induction chunk with
  | nil => exact absurd rfl h
  | cons l ls ih =>
    cases ls with
    | nil => simp [joinNL, chunkSum]
    | cons l2 ls2 =>
      have h2 : l2 :: ls2 ≠ [] := by simp
      have hih := ih h2
      simp only [joinNL, chunkSum, List.map_cons, List.sum_cons, List.length_append,
        List.length_cons] at hih ⊢
      omega

/-- Appending one line adds its length plus the terminator byte. -/
theorem chunkSum_append_single (xs : List ByteLine) (l : ByteLine) :
    chunkSum (xs ++ [l]) = chunkSum xs + (l.length + 1) := by
  simp [chunkSum]

/-- Invariant of the chunking loop of `StatsdPublisher.publish`, provided
every line fits in the packet size: every sent payload fits with room for
one terminator, the tracked cumulative length is the pending chunk's and
never exceeds the packet size, an empty pending chunk means nothing was
processed, and the processed bytes are bounded by the sends so far. -/
theorem publishFold_inv (maxSize : ℕ) (lines : List ByteLine)
    (st : List ByteLine × List ByteLine × ℕ)
    (hfit : ∀ l ∈ lines, l.length + 1 ≤ maxSize)
    (h1 : ∀ p ∈ st.1, p.length + 1 ≤ maxSize)
    (h2 : st.2.2 = chunkSum st.2.1)
    (h3 : st.2.2 ≤ maxSize)
    (h4 : st.2.1 = [] → st.1 = [] ∧ st.2.2 = 0) :
    (∀ p ∈ (lines.foldl (publishStep maxSize) st).1, p.length + 1 ≤ maxSize) ∧
    (lines.foldl (publishStep maxSize) st).2.2
      = chunkSum (lines.foldl (publishStep maxSize) st).2.1 ∧
    (lines.foldl (publishStep maxSize) st).2.2 ≤ maxSize ∧
    ((lines.foldl (publishStep maxSize) st).2.1 = []
      → (lines.foldl (publishStep maxSize) st).1 = []
        ∧ (lines.foldl (publishStep maxSize) st).2.2 = 0) ∧
    chunkSum lines + maxSize * st.1.length + st.2.2
      ≤ maxSize * (lines.foldl (publishStep maxSize) st).1.length
        + (lines.foldl (publishStep maxSize) st).2.2 := by
  induction lines generalizing st with
  | nil =>
    refine ⟨h1, h2, h3, h4, ?_⟩
    simp [chunkSum]
  | cons l ls ih =>
    have hlfit : l.length + 1 ≤ maxSize := hfit l (by simp)
    have hfit' : ∀ x ∈ ls, x.length + 1 ≤ maxSize := fun x hx => hfit x (by simp [hx])
    rw [List.foldl_cons]
    by_cases hover : st.2.2 + (l.length + 1) > maxSize
    · have hchunkne : st.2.1 ≠ [] := by
        intro hempty
        obtain ⟨_, hcum0⟩ := h4 hempty
        omega
      have hstep : publishStep maxSize st l = (st.1 ++ [joinNL st.2.1], [l], l.length + 1) := by
        simp [publishStep, hover]
      rw [hstep]
      have h1' : ∀ p ∈ st.1 ++ [joinNL st.2.1], p.length + 1 ≤ maxSize := by
        intro p hp
        rcases List.mem_append.mp hp with hmem | hmem
        · exact h1 p hmem
        · rw [List.mem_singleton.mp hmem]
          rw [joinNL_length st.2.1 hchunkne, ← h2]
          exact h3
      have IH := ih ((st.1 ++ [joinNL st.2.1], [l], l.length + 1)) hfit' h1'
        (by simp [chunkSum]) hlfit (by simp)
      refine ⟨IH.1, IH.2.1, IH.2.2.1, IH.2.2.2.1, ?_⟩
      have htot := IH.2.2.2.2
      simp only [List.length_append, List.length_singleton] at htot
      have hmul : maxSize * (st.1.length + 1) = maxSize * st.1.length + maxSize :=
        Nat.mul_succ _ _
      rw [hmul] at htot
      have hcs : chunkSum (l :: ls) = l.length + 1 + chunkSum ls := by
        simp [chunkSum]
      rw [hcs]
      omega
    · have hstep : publishStep maxSize st l = (st.1, st.2.1 ++ [l], st.2.2 + (l.length + 1)) := by
        simp [publishStep, hover]
      rw [hstep]
      have IH := ih ((st.1, st.2.1 ++ [l], st.2.2 + (l.length + 1))) hfit' h1
        (by rw [chunkSum_append_single, ← h2]) (by simpa using not_lt.mp hover) (by simp)
      refine ⟨IH.1, IH.2.1, IH.2.2.1, IH.2.2.2.1, ?_⟩
      have htot := IH.2.2.2.2
      have hcs : chunkSum (l :: ls) = l.length + 1 + chunkSum ls := by
        simp [chunkSum]
      dsimp only at htot
      rw [hcs]
      omega


/-- C3 (amended): provided every formatted line plus its one-byte
terminator fits within `maximum_packet_size`, every UDP payload sent by
`publish` is strictly shorter than `maximum_packet_size`, and whenever
the combined formatted length with separators exceeds
`maximum_packet_size` at least two sends are issued. (Without the
proviso a single over-long line is sent as one oversized payload.) -/
theorem statsd_publish_chunking (maxSize : ℕ) (lines : List ByteLine)
    (hfit : ∀ l ∈ lines, l.length + 1 ≤ maxSize) :
    (∀ p ∈ publishPayloads maxSize lines, p.length < maxSize) ∧
    (maxSize < chunkSum lines → 2 ≤ (publishPayloads maxSize lines).length) := by
  by_cases hempty : lines.isEmpty
  · rw [List.isEmpty_iff] at hempty
    subst hempty
    constructor
    · intro p hp
      simp [publishPayloads] at hp
    · intro hbig
      simp [chunkSum] at hbig
  · have hmaster := publishFold_inv maxSize lines ([], [], 0) hfit (by simp)
      (by simp [chunkSum]) (by simp) (by simp)
    obtain ⟨m1, m2, m3, m4, m5⟩ := hmaster
    have hpp : publishPayloads maxSize lines
        = (if (lines.foldl (publishStep maxSize) ([], [], 0)).2.1.isEmpty
            then (lines.foldl (publishStep maxSize) ([], [], 0)).1
            else (lines.foldl (publishStep maxSize) ([], [], 0)).1
              ++ [joinNL (lines.foldl (publishStep maxSize) ([], [], 0)).2.1]) := by
      rw [publishPayloads, if_neg hempty]
    constructor
    · intro p hp
      rw [hpp] at hp
      by_cases hch : (lines.foldl (publishStep maxSize) ([], [], 0)).2.1.isEmpty
      · rw [if_pos hch] at hp
        have := m1 p hp
        omega
      · rw [if_neg hch] at hp
        rcases List.mem_append.mp hp with hmem | hmem
        · have := m1 p hmem
          omega
        · rw [List.mem_singleton.mp hmem]
          rw [List.isEmpty_iff] at hch
          have hlen := joinNL_length _ hch
          rw [← m2] at hlen
          omega
    · intro hbig
      rw [hpp]
      by_cases hch : (lines.foldl (publishStep maxSize) ([], [], 0)).2.1.isEmpty
      · exfalso
        rw [List.isEmpty_iff] at hch
        obtain ⟨hsent, hcum⟩ := m4 hch
        rw [hsent, hcum] at m5
        simp at m5
        omega
      · rw [if_neg hch]
        simp only [List.length_append, List.length_singleton]
        by_cases hsz : (lines.foldl (publishStep maxSize) ([], [], 0)).1.length = 0
        · exfalso
          rw [hsz] at m5
          simp at m5
          omega
        · omega


/-- Witness for `statsd_publish_chunking` at a concrete input: three
3-byte lines against a 5-byte limit are sent as multiple payloads, each
under the limit. -/
theorem statsd_publish_chunking_witness :
    2 ≤ (publishPayloads 5 [[0,0],[1,1],[2,2]]).length ∧
    ∀ p ∈ publishPayloads 5 [[0,0],[1,1],[2,2]], p.length < 5 :=
  ⟨(statsd_publish_chunking 5 [[0,0],[1,1],[2,2]] (by decide)).2 (by decide),
   (statsd_publish_chunking 5 [[0,0],[1,1],[2,2]] (by decide)).1⟩

/-- C3 counterexample: a single formatted line of 5 bytes against a
3-byte `maximum_packet_size` is sent as a payload of length 5 > 3 — the
claimed universal "at or under the maximum" bound fails. -/
theorem statsd_oversized_line_cex :
    [0,0,0,0,0] ∈ publishPayloads 3 [[0,0,0,0,0]] ∧
    ([0,0,0,0,0] : ByteLine).length = 5 ∧ ¬ ((5:ℕ) ≤ 3) := by decide

/-- The tag loop only ever appends to the string it was given. -/
theorem tagStringStep_extends (tags : Tags) (acc : String) (b : Bool) :
    ∃ s, (tags.foldl tagStringStep (acc, b)).1 = acc ++ s := by
  induction tags generalizing acc b with
  | nil => exact ⟨"", by simp⟩
  | cons kv rest ih =>
    rw [List.foldl_cons]
    cases b with
    | true =>
      have hstep : tagStringStep (acc, true) kv
          = (acc ++ kv.1 ++ (match kv.2 with
              | .null => "" | .int z => ":" ++ toString z | .str s => ":" ++ s), false) := by
        simp [tagStringStep]
      rw [hstep]
      obtain ⟨s, hs⟩ := ih _ false
      exact ⟨_, by rw [hs, String.append_assoc, String.append_assoc]⟩
    | false =>
      have hstep : tagStringStep (acc, false) kv
          = (acc ++ "," ++ kv.1 ++ (match kv.2 with
              | .null => "" | .int z => ":" ++ toString z | .str s => ":" ++ s), false) := by
        simp [tagStringStep]
      rw [hstep]
      obtain ⟨s, hs⟩ := ih _ false
      exact ⟨_, by rw [hs, String.append_assoc, String.append_assoc, String.append_assoc]⟩


/-- C4: a Counter with value 1 and no tags formats to `name:1|c`
(plain statsd), and with the single tag `env: qa` to `name:1|c|#env:qa`
(dogstatsd, which is the statsd-family formatter that renders tags); in
general every metric with a non-`None` value contributes exactly the
line `name:value|type` (statsd) or `name:value|type` plus a tag suffix
(dogstatsd), the suffix being empty or `|#`-prefixed. -/
theorem statsd_format_round_trip (metrics : List Metric) (m : Metric) (v : ℤ)
    (p : DogStatsdPublisher) (hm : m ∈ metrics) (hv : m.value = some v) :
    (StatsdPublisher.getFormattedMetrics [Metric.counter ⟨"name", 0, 1, []⟩] false 0
      = ["name:1|c"]) ∧
    ((DogStatsdPublisher.make [] [] false 8000).getFormattedMetrics
        [Metric.counter ⟨"name", 0, 1, [(("env"), TagV.str ("qa"))]⟩] false 0
      = ["name:1|c|#env:qa"]) ∧
    (statsdLine m.name v (statsdTypeLabel m)
      ∈ StatsdPublisher.getFormattedMetrics metrics false 0) ∧
    (statsdLine m.name v (p.typeLabel m) ++ generateTagString m.tags (p.existingTagsFor m)
      ∈ p.getFormattedMetrics metrics false 0) ∧
    (m.tags = [] → generateTagString m.tags = "") ∧
    (m.tags ≠ [] → ∃ s, generateTagString m.tags = "|#" ++ s) := by
  refine ⟨by rfl, by rfl, ?_, ?_, ?_, ?_⟩
  · unfold StatsdPublisher.getFormattedMetrics
    have hmem : statsdLine m.name v (statsdTypeLabel m)
        ∈ metrics.filterMap (fun m =>
            (m.value).map fun v => statsdLine m.name v (statsdTypeLabel m)) :=
      List.mem_filterMap.mpr ⟨m, hm, by rw [hv]; rfl⟩
    have hne : ¬ (metrics.filterMap (fun m =>
        (m.value).map fun v => statsdLine m.name v (statsdTypeLabel m))).isEmpty = true := by
      rw [List.isEmpty_iff]
      exact fun hnil => List.not_mem_nil _ (hnil ▸ hmem)
    rw [if_neg hne]
    exact hmem
  · unfold DogStatsdPublisher.getFormattedMetrics
    have hmem : statsdLine m.name v (p.typeLabel m)
          ++ generateTagString m.tags (p.existingTagsFor m)
        ∈ metrics.filterMap (fun m => (m.value).map fun v =>
            statsdLine m.name v (p.typeLabel m)
              ++ generateTagString m.tags (p.existingTagsFor m)) :=
      List.mem_filterMap.mpr ⟨m, hm, by rw [hv]; rfl⟩
    have hne : ¬ (metrics.filterMap (fun m => (m.value).map fun v =>
        statsdLine m.name v (p.typeLabel m)
          ++ generateTagString m.tags (p.existingTagsFor m))).isEmpty = true := by
      rw [List.isEmpty_iff]
      exact fun hnil => List.not_mem_nil _ (hnil ▸ hmem)
    rw [if_neg hne]
    exact hmem
  · intro htags
    simp [generateTagString, htags]
  · intro htags
    unfold generateTagString
    rw [if_neg (by simpa using htags)]
    have hstart : (if ("" : String) ≠ "" then (("" : String), false) else (("|#" : String), true))
        = (("|#" : String), true) := by simp
    rw [hstart]
    exact tagStringStep_extends m.tags ("|#") true


/-- Witness for `statsd_format_round_trip` at a concrete input. -/
theorem statsd_format_round_trip_witness :
    statsdLine ("n") 2 (statsdTypeLabel (Metric.counter ⟨"n", 0, 2, []⟩))
      ∈ StatsdPublisher.getFormattedMetrics [Metric.counter ⟨"n", 0, 2, []⟩] false 0 :=
  (statsd_format_round_trip [Metric.counter ⟨"n", 0, 2, []⟩] (Metric.counter ⟨"n", 0, 2, []⟩) 2
    (DogStatsdPublisher.make [] [] false 8000) (List.mem_singleton.mpr rfl) (by rfl)).2.2.1

/-- A common prefix cancels in string equality. -/
theorem string_append_left_cancel {s t u : String} (h : s ++ t = s ++ u) : t = u := by
  have hd := congrArg String.data h
  simp only [String.data_append] at hd
  exact String.ext (List.append_cancel_left hd)

/-- A name never equals itself with a `#`-hash suffix attached. -/
theorem self_ne_append_hash (name h : String) : name ≠ name ++ "#" ++ h := by
  intro heq
  have hlen := congrArg String.length heq
  simp only [String.length_append] at hlen
  have : ("#" : String).length = 1 := rfl
  omega

/-- When `_get_name` takes no hash suffix, the tag dict is empty or a
lone `resolution` entry, so the resolution-stripped tags are empty. -/
theorem filtered_empty_of_no_suffix (tags : Tags)
    (hcond : ¬ (¬ tags.isEmpty = true
      ∧ ("resolution" ∉ tags.map Prod.fst ∨ tags.length > 1))) :
    tags.filter (fun kv => kv.1 ≠ "resolution") = [] := by
  push_neg at hcond
  by_cases hemp : tags.isEmpty = true
  · rw [List.isEmpty_iff] at hemp
    subst hemp
    rfl
  · obtain ⟨hres, hlen⟩ := hcond hemp
    cases tags with
    | nil => rfl
    | cons kv rest =>
      cases rest with
      | nil =>
        simp only [List.map_cons, List.map_nil, List.mem_cons, List.not_mem_nil, or_false]
          at hres
        simp [List.filter, hres.symm]
      | cons kv2 rest2 =>
        simp at hlen


/-- C8 (amended): the internal key of `_get_name` is independent of tag
insertion order (equal tag sets give equal keys), is unaffected by a
lone `resolution` tag (which keys like no tags at all), and is
collision-free up to hash collisions: whenever the hash strings of the
resolution-stripped tag sets differ, the keys differ. Absolute
collision-freedom is impossible: tag sets differing only in
`resolution` deliberately share a key. -/
theorem internal_key_properties (hashStr : HashStr) (name : String)
    (tags1 tags2 : Tags) (v : TagV)
    (hn1 : (tags1.map Prod.fst).Nodup) (hn2 : (tags2.map Prod.fst).Nodup) :
    (tags1.toFinset = tags2.toFinset →
      getInternalName hashStr name tags1 = getInternalName hashStr name tags2) ∧
    (getInternalName hashStr name [(("resolution"), v)] = getInternalName hashStr name []) ∧
    (hashStr (tags1.filter (fun kv => kv.1 ≠ "resolution")).toFinset
        ≠ hashStr (tags2.filter (fun kv => kv.1 ≠ "resolution")).toFinset →
      getInternalName hashStr name tags1 ≠ getInternalName hashStr name tags2) := by
  refine ⟨?_, ?_, ?_⟩
  · intro hset
    have hp1 : tags1.Nodup := List.Nodup.of_map Prod.fst hn1
    have hp2 : tags2.Nodup := List.Nodup.of_map Prod.fst hn2
    have hlen : tags1.length = tags2.length := by
      rw [← List.toFinset_card_of_nodup hp1, ← List.toFinset_card_of_nodup hp2, hset]
    have hisEmpty : (tags1.isEmpty = true) ↔ (tags2.isEmpty = true) := by
      rw [List.isEmpty_iff, List.isEmpty_iff, ← List.toFinset_eq_empty_iff,
        ← List.toFinset_eq_empty_iff, hset]
    have hmem : ("resolution" ∈ tags1.map Prod.fst) ↔ ("resolution" ∈ tags2.map Prod.fst) := by
      simp only [List.mem_map]
      constructor
      · rintro ⟨kv, hkv, hfst⟩
        exact ⟨kv, List.mem_toFinset.mp (hset ▸ List.mem_toFinset.mpr hkv), hfst⟩
      · rintro ⟨kv, hkv, hfst⟩
        exact ⟨kv, List.mem_toFinset.mp (hset ▸ List.mem_toFinset.mpr hkv), hfst⟩
    have hfin : (tags1.filter (fun kv => kv.1 ≠ "resolution")).toFinset
        = (tags2.filter (fun kv => kv.1 ≠ "resolution")).toFinset := by
      rw [List.toFinset_filter, List.toFinset_filter, hset]
    unfold getInternalName
    refine if_congr (and_congr (not_congr hisEmpty)
      (or_congr (not_congr hmem) (by rw [hlen]))) (by rw [hfin]) rfl
  · simp [getInternalName]
  · intro hhash heq
    unfold getInternalName at heq
    by_cases c1 : ¬ tags1.isEmpty = true
        ∧ ("resolution" ∉ tags1.map Prod.fst ∨ tags1.length > 1)
    · rw [if_pos c1] at heq
      by_cases c2 : ¬ tags2.isEmpty = true
          ∧ ("resolution" ∉ tags2.map Prod.fst ∨ tags2.length > 1)
      · rw [if_pos c2] at heq
        rw [String.append_assoc, String.append_assoc] at heq
        exact hhash (string_append_left_cancel
          (string_append_left_cancel heq))
      · rw [if_neg c2] at heq
        exact self_ne_append_hash name _ heq.symm
    · rw [if_neg c1] at heq
      by_cases c2 : ¬ tags2.isEmpty = true
          ∧ ("resolution" ∉ tags2.map Prod.fst ∨ tags2.length > 1)
      · rw [if_pos c2] at heq
        exact self_ne_append_hash name _ heq
      · apply hhash
        rw [filtered_empty_of_no_suffix tags1 c1, filtered_empty_of_no_suffix tags2 c2]


/-- Witness for `internal_key_properties` at concrete inputs, using the
cardinality hash: the tag `a` keys differently from no tags, and a lone
`resolution` tag keys identically to no tags. -/
theorem internal_key_properties_witness :
    getInternalName hashStrCard ("n") [(("a"), TagV.int 1)]
      ≠ getInternalName hashStrCard ("n") [] ∧
    getInternalName hashStrCard ("n") [(("resolution"), TagV.int 1)]
      = getInternalName hashStrCard ("n") [] :=
  ⟨(internal_key_properties hashStrCard ("n") [(("a"), TagV.int 1)] [] (TagV.int 1)
      (by simp) (by simp)).2.2 (by decide),
   (internal_key_properties hashStrCard ("n") [(("a"), TagV.int 1)] [] (TagV.int 1)
      (by simp) (by simp)).2.1⟩

/-- C8 counterexample: the tag sets `{resolution: 1}` and `{}` are
different, yet they derive the same internal key for the same name —
so the key derivation is not collision-free across different tag sets,
as the claim states (its own `resolution` clause forces this). -/
theorem resolution_only_collision_cex :
    getInternalName hashStr0 ("n") [(("resolution"), TagV.int 1)]
      = getInternalName hashStr0 ("n") [] ∧
    ([(("resolution"), TagV.int 1)] : Tags) ≠ [] :=
  ⟨rfl, by simp⟩

/-- Running start/stop cycles accumulates their elapsed durations into
`_running_value` and leaves `_value`, the resolution untouched; after a
non-empty run the timer is stopped. -/
theorem runPairs_state (t : Timer) (ps : List (ℚ × ℚ)) :
    (runPairs t ps).runningValue = t.runningValue + pairsElapsed ps ∧
    (runPairs t ps).val = t.val ∧
    (runPairs t ps).resolution = t.resolution ∧
    (runPairs t ps).startTime = if ps.isEmpty then t.startTime else none := by
  induction ps generalizing t with
  | nil => simp [runPairs, pairsElapsed]
  | cons p ps ih =>
    have hstep : runPairs t (p :: ps) = runPairs ((t.start p.1).stop p.2) ps := rfl
    have hss : (t.start p.1).stop p.2
        = { t with runningValue := t.runningValue + (p.2 - p.1), startTime := none } := by
      simp [Timer.start, Timer.stop]
    obtain ⟨h1, h2, h3, h4⟩ := ih ((t.start p.1).stop p.2)
    rw [hstep]
    refine ⟨?_, ?_, ?_, ?_⟩
    · rw [h1, hss]
      simp [pairsElapsed]
      ring
    · rw [h2, hss]
    · rw [h3, hss]
    · rw [h4, hss]
      simp

/-- The state of a freshly constructed timer. -/
theorem timer_make_fields (name : String) (v0 : ℚ) (res : ℕ) (tags : Tags) (t0 : ℚ) :
    (Timer.make name v0 res tags t0).val = v0 ∧
    (Timer.make name v0 res tags t0).runningValue = 0 ∧
    (Timer.make name v0 res tags t0).resolution = res ∧
    (Timer.make name v0 res tags t0).startTime = some t0 := by
  by_cases h : v0 ≠ 0 ∧ v0 > 0
  · simp [Timer.make, Timer.start, h]
  · simp [Timer.make, Timer.start, h]

/-- C6 (amended): a timer's published value after start/stop cycles with
a positive total elapsed duration is `round(total_elapsed * resolution)`,
accumulating across the cycles; the resolution multiplier touches only
that accumulated running time — a non-zero initial value publishes as
`round(v0)` and a directly-set positive value as `round(v)`, unmultiplied
— and the value is `None` when the timer has no accumulated time and its
set/initial value is zero (in particular when a completed cycle elapsed
exactly zero, the set or initial value is published instead of
`round(0 * resolution) = 0`). -/
theorem timer_value_resolution (name : String) (v0 : ℚ) (res : ℕ) (tags : Tags) (t0 : ℚ)
    (ps : List (ℚ × ℚ)) (v : ℚ) :
    (ps ≠ [] → 0 < pairsElapsed ps →
      (runPairs (Timer.make name v0 res tags t0) ps).value
        = some (pyRound (pairsElapsed ps * (res : ℚ)))) ∧
    (v0 ≠ 0 → (Timer.make name v0 res tags t0).value = some (pyRound v0)) ∧
    (v0 = 0 → (Timer.make name v0 res tags t0).value = none) ∧
    (0 < v → ((Timer.make name v0 res tags t0).set (some v)).map Timer.value
        = .ok (some (pyRound v))) := by
  obtain ⟨hval, hrun, hres, hstart⟩ := timer_make_fields name v0 res tags t0
  refine ⟨?_, ?_, ?_, ?_⟩
  · intro hne hpos
    obtain ⟨h1, h2, h3, h4⟩ := runPairs_state (Timer.make name v0 res tags t0) ps
    rw [Timer.value, if_pos, h1, hrun, h3, hres, zero_add]
    constructor
    · rw [h1, hrun, zero_add]
      exact hpos
    · rw [Timer.startTimeTruthy, h4]
      simp [hne]
  · intro hv0
    rw [Timer.value, if_neg, if_pos]
    · rw [hval]
    · rw [hval]; exact hv0
    · rw [hrun]
      simp
  · intro hv0
    rw [Timer.value, if_neg, if_neg]
    · rw [hval, hv0]
      simp
    · rw [hrun]
      simp
  · intro hv
    have hupd : ((Timer.make name v0 res tags t0).set (some v))
        = .ok ({ Timer.make name v0 res tags t0 with val := v }) := by
      simp [Timer.set, not_lt.mpr hv.le]
    rw [hupd]
    simp only [Except.map]
    rw [Timer.value]
    rw [if_neg ?hA]
    case hA =>
      simp
      intro h0
      rw [hrun] at h0
      exact absurd h0 (lt_irrefl 0)
    rw [if_pos ?hB]
    case hB => simpa using hv.ne'

/-- Witness for `timer_value_resolution` at a concrete input: one cycle of
2 elapsed seconds at millisecond resolution publishes 2000. -/
theorem timer_value_resolution_witness :
    (runPairs (Timer.make ("t") 0 1000 [] 0) [((0:ℚ), (2:ℚ))]).value = some 2000 := by
  have h := (timer_value_resolution ("t") 0 1000 [] 0 [(0, 2)] 3).1 (by simp)
    (by norm_num [pairsElapsed])
  rw [h]
  norm_num [pairsElapsed, pyRound]

/-- C6 counterexample: a timer with initial value 5 that completed one
start/stop cycle of zero elapsed time publishes 5, not
`round(0 * 1000) = 0` — the claimed equality fails for a completed cycle
with zero accumulated time. -/
theorem timer_zero_elapsed_cex :
    (runPairs (Timer.make ("t") 5 1000 [] 1) [((2:ℚ), (2:ℚ))]).value = some 5 ∧
    pyRound (pairsElapsed [((2:ℚ), (2:ℚ))] * ((1000:ℕ) : ℚ)) = 0 ∧
    (5:ℤ) ≠ 0 := by
  refine ⟨?_, ?_, by decide⟩
  · norm_num [runPairs, Timer.make, Timer.start, Timer.stop, Timer.value,
      Timer.startTimeTruthy, pyRound]
  · norm_num [pairsElapsed, pyRound]

/-- C7: `get_all_metrics` returns, in stable order, an optional
meta-timer (exactly when meta-metrics are enabled), then every counter
regardless of value, then the gauges, histograms and timers whose value
is not `None`; a recorder-held timer with value `None` never appears,
and a counter or a value-bearing timer always does. -/
theorem get_all_metrics_order (r : Recorder) (metaT0 metaT1 : ℚ) :
    (r.getAllMetrics metaT0 metaT1
      = (if r.config = some true
          then [Metric.timer (getAllMetricsMetaTimer metaT0 metaT1)] else [])
        ++ r.counters.map (fun kv => Metric.counter kv.2)
        ++ r.gauges.flatMap (fun kv => (kv.2.filter (fun g => g.value.isSome)).map Metric.gauge)
        ++ r.histograms.flatMap
            (fun kv => (kv.2.filter (fun h => h.value.isSome)).map Metric.histogram)
        ++ r.timers.flatMap (fun kv => (kv.2.filter (fun t => t.value.isSome)).map Metric.timer)) ∧
    (∀ k c, (k, c) ∈ r.counters → Metric.counter c ∈ r.getAllMetrics metaT0 metaT1) ∧
    (∀ t : Timer, t.value = none → t ≠ getAllMetricsMetaTimer metaT0 metaT1 →
      Metric.timer t ∉ r.getAllMetrics metaT0 metaT1) ∧
    (∀ k ts (t : Timer), (k, ts) ∈ r.timers → t ∈ ts → t.value.isSome →
      Metric.timer t ∈ r.getAllMetrics metaT0 metaT1) := by
  have hshape : r.getAllMetrics metaT0 metaT1
      = (if r.config = some true
          then [Metric.timer (getAllMetricsMetaTimer metaT0 metaT1)] else [])
        ++ r.counters.map (fun kv => Metric.counter kv.2)
        ++ r.gauges.flatMap (fun kv => (kv.2.filter (fun g => g.value.isSome)).map Metric.gauge)
        ++ r.histograms.flatMap
            (fun kv => (kv.2.filter (fun h => h.value.isSome)).map Metric.histogram)
        ++ r.timers.flatMap
            (fun kv => (kv.2.filter (fun t => t.value.isSome)).map Metric.timer) := by
    unfold Recorder.getAllMetrics Recorder.getAllMetricsBody
    split
    · simp
    · simp
  refine ⟨hshape, ?_, ?_, ?_⟩
  · intro k c hkc
    rw [hshape]
    apply List.mem_append_of_mem_left
    apply List.mem_append_of_mem_left
    apply List.mem_append_of_mem_left
    apply List.mem_append_of_mem_right
    exact List.mem_map.mpr ⟨(k, c), hkc, rfl⟩
  · intro t hnone hnotmeta hmem
    rw [hshape] at hmem
    rcases List.mem_append.mp hmem with hm | hD
    · rcases List.mem_append.mp hm with hm | hC
      · rcases List.mem_append.mp hm with hm | hB
        · rcases List.mem_append.mp hm with hpre | hA
          · by_cases hcfg : r.config = some true
            · rw [if_pos hcfg] at hpre
              rcases List.mem_singleton.mp hpre with heq
              injection heq with h
              exact hnotmeta h
            · rw [if_neg hcfg] at hpre
              cases hpre
          · obtain ⟨kv, _, heq⟩ := List.mem_map.mp hA
            simp at heq
        · obtain ⟨kv, _, hx⟩ := List.mem_flatMap.mp hB
          obtain ⟨g, _, heq⟩ := List.mem_map.mp hx
          simp at heq
      · obtain ⟨kv, _, hx⟩ := List.mem_flatMap.mp hC
        obtain ⟨hh, _, heq⟩ := List.mem_map.mp hx
        simp at heq
    · obtain ⟨kv, _, hx⟩ := List.mem_flatMap.mp hD
      obtain ⟨t', hfil, heq⟩ := List.mem_map.mp hx
      injection heq with h
      subst h
      have := (List.mem_filter.mp hfil).2
      rw [hnone] at this
      simp at this
  · intro k ts t hkts hts hsome
    rw [hshape]
    apply List.mem_append_of_mem_right
    exact List.mem_flatMap.mpr
      ⟨(k, ts), hkts, List.mem_map.mpr ⟨t, List.mem_filter.mpr ⟨hts, hsome⟩, rfl⟩⟩


/-- Witness for `get_all_metrics_order` at a concrete input. -/
theorem get_all_metrics_order_witness :
    Metric.counter (⟨"c", 0, 1, []⟩ : Counter) ∈
      ({ Recorder.init none none with
          counters := [(("c"), (⟨"c", 0, 1, []⟩ : Counter))] } : Recorder).getAllMetrics 0 0 :=
  (get_all_metrics_order _ 0 0).2.1 ("c") ⟨"c", 0, 1, []⟩ (List.mem_singleton.mpr rfl)

/-- C9: `record_over_function` on a `Counter` increments it by 1 and
passes the callable's outcome through unaltered; on a `Timer` it passes
the outcome through and the timer ends stopped with the call's duration
accumulated — on the exception path as well, since the outcome `fres`
ranges over `.error` too; on a `Gauge` or `Histogram` (the inherited
base implementation) it is a `TypeError` whatever the callable would do
— the callable is never consulted. -/
theorem record_over_function_semantics {ε ρ : Type} (c : Counter) (t : Timer)
    (g : Gauge) (hg : Histogram) (tStart tEnd : ℚ) (fres : Except ε ρ) :
    (c.recordOverFunction fres).1.value = c.value + 1 ∧
    (c.recordOverFunction fres).2 = fres ∧
    (t.recordOverFunction tStart tEnd fres).2 = fres ∧
    (t.recordOverFunction tStart tEnd fres).1.startTime = none ∧
    (t.recordOverFunction tStart tEnd fres).1.runningValue = t.runningValue + (tEnd - tStart) ∧
    (t.recordOverFunction tStart tEnd fres).1.val = t.val ∧
    g.recordOverFunction fres = .error (.inl .typeError) ∧
    hg.recordOverFunction fres = .error (.inl .typeError) ∧
    (Metric.recordOverFunctionUnsupported fres : Except (PyErr ⊕ ε) ρ) = .error (.inl .typeError) := by
  cases fres <;>
    simp [Counter.recordOverFunction, Counter.increment, Counter.value,
      Timer.recordOverFunction, Timer.start, Timer.stop,
      Gauge.recordOverFunction, Histogram.recordOverFunction,
      Metric.recordOverFunctionUnsupported]

/-- C10: a fresh `DefaultMetricsRecorder` has `_last_publish_timestamp`
0, so whenever the current time is at least `max_age` (resp. `delay`)
past the epoch, the first `publish_if_full_or_old` (resp.
`throttled_publish_all`) publishes regardless of the unpublished count. -/
theorem fresh_recorder_first_publish (p : Option String) (cfg : Option Bool) (r : Recorder)
    (now : ℚ) (maxMetrics : ℕ) (maxAge delay : ℚ) :
    (Recorder.init p cfg).lastPublish = 0 ∧
    (r.lastPublish = 0 → maxAge ≤ now → (r.publishIfFullOrOld now maxMetrics maxAge).2 = true) ∧
    (r.lastPublish = 0 → delay ≤ now → (r.throttledPublishAll now delay).2 = true) := by
  refine ⟨rfl, ?_, ?_⟩
  · intro h0 hage
    unfold Recorder.publishIfFullOrOld
    rw [if_pos]
    right
    rw [h0, sub_zero]
    exact hage
  · intro h0 hdelay
    unfold Recorder.throttledPublishAll
    rw [if_pos]
    rw [h0, sub_zero]
    exact hdelay

/-- Witness for `fresh_recorder_first_publish` at a concrete input. -/
theorem fresh_recorder_first_publish_witness :
    ((Recorder.init none none).publishIfFullOrOld 10 18 10).2 = true ∧
    ((Recorder.init none none).throttledPublishAll 10 10).2 = true :=
  ⟨(fresh_recorder_first_publish none none (Recorder.init none none) 10 18 10 10).2.1
      rfl (le_refl 10),
   (fresh_recorder_first_publish none none (Recorder.init none none) 10 18 10 10).2.2
      rfl (le_refl 10)⟩

end PyM
